import Mathlib

/-!
Verification of the OPCServer repository (opc_project): a shallow embedding of
the OPC UA provisioning server (`opcua_server.py`), the type-casting and
export helpers (`opcua_lib.py`) and the client (`opcua_client.py`),
together with proofs settling the spec claims.

Conventions of the embedding:
* Python exceptions become an explicit `PyExc` value threaded through
  `Except`; every method returns its post-state together with the
  `Except` outcome, since Python object state survives a raised exception.
* Calls into the external protocol stack (python-opcua) are parameterised
  by oracles describing whether the underlying call succeeds and which
  external exception it raises otherwise.
* The address space owned by the embedded internal server is modelled as a
  forest of trees under the protocol Root node; the standard namespace-0
  contents other than the Objects folder are omitted (the code only ever
  creates, looks up and deletes nodes under Objects, and the export filters
  to the managed namespace index).
-/

namespace OPC

/-- External exceptions raised by the protocol stack or the runtime;
`uaError code` models `opcua.ua.uaerrors.UaError` carrying a status code,
`other tag` models any other exception (transport, OS, ...). -/
inductive UExc where
  | uaError (code : Nat)
  | other (tag : Nat)
deriving DecidableEq, Repr

/-- UA status code `BadNodeIdExists` (the only code `resolve_nodes` inspects). -/
def BadNodeIdExists : Nat := 0x805E0000

/-- UA status code `BadParentNodeIdInvalid`, returned by the internal server
when an AddNodes item names a parent that is not in the address space. -/
def BadParentNodeIdInvalid : Nat := 0x805B0000

/-- Python exception values observable from the embedded code.  Each
constructor mirrors one exception class used by the source, with the
context fields that class stores (`endpoint`, `nodeid`, `original`).
`OpcClientError` has no fields in the source beyond its message. -/
inductive PyExc where
  | opcServerError (endpoint : String) (message : String) (original : Option PyExc)
  | opcClientError (message : String)
  | nodeReadError (nodeid : String) (message : String) (original : Option PyExc)
  | nodeWriteError (nodeid : String) (message : String) (original : Option PyExc)
  | connectionError (endpoint : String) (message : String) (original : Option PyExc)
  | typeError (message : String)
  | valueError (message : String)
  | assertionError (message : String)
  | attributeError (message : String)
  | external (e : UExc)

/-- Python whitespace characters stripped by `str.strip()`. -/
def isPySpace (c : Char) : Bool :=
  c = ' ' || c = '\t' || c = '\n' || c = '\r' || c = '\x0b' || c = '\x0c'

/-- Embedding of Python `str.strip()`: drop whitespace from both ends. -/
def pyStrip (s : String) : String :=
  String.mk (((s.toList.dropWhile isPySpace).reverse.dropWhile isPySpace).reverse)

/-- One character of Python `str.lower()`, restricted to ASCII plus the
letter Í — the only non-ASCII uppercase character relevant to the fixed
truthy set, which contains "sí". -/
def pyLowerChar (c : Char) : Char :=
  if c = 'Í' then 'í' else c.toLower

/-- Embedding of Python `str.lower()` (see `pyLowerChar` for coverage). -/
def pyLower (s : String) : String :=
  String.mk (s.toList.map pyLowerChar)

/-- The `ua.VariantType` members appearing in the supported-type table. -/
inductive VariantType where
  | Boolean | SByte | Byte | Int16 | UInt16 | Int32 | UInt32
  | Int64 | UInt64 | Float | Double | String
deriving DecidableEq, Repr

/-- Result of Python `float()`: a finite rational, an infinity, or NaN. -/
inductive PyFloat where
  | finite (q : Rat)
  | inf (neg : Bool)
  | nan
deriving DecidableEq, Repr

/-- A Python value stored in a node definition's `initial` field. -/
inductive PyVal where
  | bool (b : Bool)
  | int (n : Int)
  | float (f : PyFloat)
  | str (s : String)
deriving DecidableEq, Repr

/-- A raw CSV row restricted to the six required columns (extra columns are
ignored by the code, so they are dropped from the model).  The source
column named `alias` is called `aliasName` here because `alias` is a
reserved word in Lean. -/
structure Row where
  aliasName : String
  nodeid : String
  datatype : String
  initial : String
  folder : String
  writable : String
deriving DecidableEq, Repr

/-- A validated point definition: the dict produced by `validate_types`
(the input row with `datatype`, `initial` and `writable` replaced by their
cast values). -/
structure NodeDef where
  aliasName : String
  nodeid : String
  datatype : VariantType
  initial : PyVal
  folder : String
  writable : Bool
deriving DecidableEq, Repr

/-- The fixed supported-type table `TYPE_MAP` of `validate_types`. -/
def TYPE_MAP : List (String × VariantType) :=
  [("boolean", .Boolean), ("sbyte", .SByte), ("byte", .Byte),
   ("int16", .Int16), ("uint16", .UInt16), ("int32", .Int32),
   ("uint32", .UInt32), ("int64", .Int64), ("uint64", .UInt64),
   ("float", .Float), ("double", .Double), ("string", .String)]

/-- The truthy set `_TRUE` of `validate_types`. -/
def pyTrueSet : List String := ["1", "true", "t", "yes", "y", "si", "sí"]

/-- The falsy set `_FALSE` of `validate_types`. -/
def pyFalseSet : List String := ["0", "false", "f", "no", "n", ""]

/-- Tail of a base-10 digit run as accepted by CPython `int()`:
digits with single underscores allowed between digits. -/
def digitsTail : List Char → Bool
  | [] => true
  | '_' :: [] => false
  | '_' :: c :: cs => c.isDigit && digitsTail cs
  | c :: cs => c.isDigit && digitsTail cs

/-- A nonempty base-10 digit run as accepted by CPython `int()`. -/
def digitsRun : List Char → Bool
  | [] => false
  | c :: cs => c.isDigit && digitsTail cs

/-- Numeric value of a digit run (underscores removed beforehand). -/
def digitsVal (cs : List Char) : Nat :=
  cs.foldl (fun a c => a * 10 + (c.toNat - 48)) 0

/-- Embedding of CPython `int(s)` on an already-stripped ASCII string:
optional sign, then a digit run with optional grouping underscores. -/
def pyInt (s : String) : Option Int :=
  let body : List Char → Option Int := fun cs =>
    if digitsRun cs then some (Int.ofNat (digitsVal (cs.filter (fun c => c ≠ '_')))) else none
  match s.toList with
  | '+' :: rest => body rest
  | '-' :: rest => (body rest).map Int.neg
  | rest => body rest

/-- A possibly-empty digit run (used for the integer and fractional parts
of a float literal, where either side of the dot may be absent). -/
def digitsOpt : List Char → Bool
  | [] => true
  | cs => digitsRun cs

/-- Mantissa of a CPython float literal: digits, optionally split by a
single dot, with at least one digit overall. -/
def pyFloatMantissa (cs : List Char) : Option Rat :=
  match cs.splitOn '.' with
  | [ip] =>
      if digitsRun ip then some ((digitsVal (ip.filter (fun c => c ≠ '_')) : Nat) : Rat) else none
  | [ip, fp] =>
      if digitsOpt ip && digitsOpt fp && !(ip = [] && fp = []) then
        let fpd := fp.filter (fun c => c ≠ '_')
        some (((digitsVal (ip.filter (fun c => c ≠ '_')) : Nat) : Rat)
              + ((digitsVal fpd : Nat) : Rat) / ((10 : Rat) ^ fpd.length))
      else none
  | _ => none

/-- Embedding of CPython `float(s)` on an already-stripped ASCII string
(plus the í needed by nothing here): sign, then `inf`/`infinity`/`nan`
or a decimal mantissa with optional exponent. -/
def pyFloat (s : String) : Option PyFloat :=
  let signSplit : List Char → Bool × List Char := fun cs =>
    match cs with
    | '+' :: rest => (false, rest)
    | '-' :: rest => (true, rest)
    | rest => (false, rest)
  let (neg, cs) := signSplit s.toList
  let low := String.mk (cs.map pyLowerChar)
  if low = "inf" || low = "infinity" then some (.inf neg)
  else if low = "nan" then some .nan
  else
    let (mant, rest) := cs.span (fun c => c ≠ 'e' && c ≠ 'E')
    match rest with
    | [] => (pyFloatMantissa mant).map (fun q => .finite (if neg then -q else q))
    | _ :: ecs =>
        let (eneg, ed) := signSplit ecs
        if digitsRun ed then
          (pyFloatMantissa mant).map (fun q =>
            let e : Int := if eneg then -(Int.ofNat (digitsVal (ed.filter (fun c => c ≠ '_'))))
                           else Int.ofNat (digitsVal (ed.filter (fun c => c ≠ '_')))
            .finite ((if neg then -q else q) * (10 : Rat) ^ e))
        else none

/-- The integer-family membership test of `validate_types`. -/
def isIntFamily (v : VariantType) : Bool :=
  match v with
  | .SByte | .Byte | .Int16 | .UInt16 | .Int32 | .UInt32 | .Int64 | .UInt64 => true
  | _ => false

/-- The truthy/falsy table shared by the boolean `initial` branch of
`validate_types` and its `writable` cast: the already-lowercased text is
matched against `_TRUE` then `_FALSE`; anything else raises `ValueError`
with the message of the respective call site. -/
def boolCast (low : String) (errMsg : String) : Except PyExc Bool :=
  if pyTrueSet.contains low then .ok true
  else if pyFalseSet.contains low then .ok false
  else .error (.valueError errMsg)

/-- The `initial` cast of `validate_types`, by variant type, on the
already-stripped raw text. -/
def castInitial (vtype : VariantType) (raw : String) : Except PyExc PyVal :=
  if vtype = .Boolean then
    match boolCast (pyLower raw) "Valor inicial no es booleano" with
    | .ok b => .ok (.bool b)
    | .error e => .error e
  else if vtype = .String then .ok (.str raw)
  else if isIntFamily vtype then
    if raw = "" then .ok (.int 0)
    else
      match pyInt raw with
      | some n => .ok (.int n)
      | none => .error (.valueError "Valor inicial no es int")
  else
    let norm := String.mk (raw.toList.map (fun c => if c = ',' then '.' else c))
    if norm = "" then .ok (.float (.finite 0))
    else
      match pyFloat norm with
      | some f => .ok (.float f)
      | none => .error (.valueError "Valor inicial no es float")

/-- Embedding of `opcua_lib.validate_types`: looks up `datatype`
(case-insensitive, trimmed) in `TYPE_MAP`, casts `initial` according to the
variant type (booleans through the truthy/falsy sets, strings verbatim,
integers with empty meaning 0, floats with empty meaning 0.0 and comma
accepted as decimal separator), then casts `writable` through the same
boolean rule; any failure raises `ValueError`.  The source guards the
float branch with `vtype == Float or ua.VariantType.Double`, which is true
for every type reaching it, so Float and Double both take that branch and
the trailing `else` is unreachable. -/
def validate_types (row : Row) : Except PyExc NodeDef :=
  let dtype_key := pyLower (pyStrip row.datatype)
  match TYPE_MAP.lookup dtype_key with
  | none => .error (.valueError "Datatype no soportado")
  | some vtype =>
    match castInitial vtype (pyStrip row.initial) with
    | .error e => .error e
    | .ok initial =>
      match boolCast (pyLower (pyStrip row.writable))
          "Valor de 'Writable' no es booleano" with
      | .ok w => .ok ⟨row.aliasName, row.nodeid, vtype, initial, row.folder, w⟩
      | .error e => .error e

/-! ## Client side (`opcua_client.py`) -/

/-- State of an `OpcClient` instance: the fixed endpoint, whether a
protocol session is present (`client is not None`), the alias map loaded
from JSON, and the session-scoped cache of resolved nodes.  A resolved
node handle is represented by the protocol node identifier string the
client resolved it from (the only datum the embedded code paths use). -/
structure OpcClient where
  endpoint_url : String
  connected : Bool
  aliases : List (String × String)
  nodes : List (String × String)
deriving DecidableEq, Repr

/-- Embedding of `OpcClient.is_connected` (`self.client is not None`). -/
def OpcClient.is_connected (c : OpcClient) : Bool := c.connected

/-- Embedding of `OpcClient._get_node_by_alias`: raises `OpcClientError`
when not connected or the alias is unknown; otherwise returns the cached
node or resolves it through `client.get_node` (whose success is the
oracle `getNodeOk`) and caches it. -/
def OpcClient.get_node_by_alias (getNodeOk : String → Bool) (c : OpcClient)
    (al : String) : OpcClient × Except PyExc String :=
  if !c.is_connected then (c, .error (.opcClientError "Cliente no conectado"))
  else if !(c.aliases.any (fun p => p.1 == al)) then
    (c, .error (.opcClientError "Alias desconocido"))
  else
    match c.nodes.lookup al with
    | some n => (c, .ok n)
    | none =>
      let nodeid := ((c.aliases.lookup al).getD "")
      if getNodeOk nodeid then
        ({ c with nodes := c.nodes ++ [(al, nodeid)] }, .ok nodeid)
      else (c, .error (.opcClientError "Error al acceder al nodo"))

/-- Embedding of `OpcClient.read_node`.  The source wraps any failure of
the try block in `raise NodeReadError(f"Error de lectura de nodo: {alias}",
original=exc)`; `NodeReadError.__init__(self, nodeid, message, original)`
has no default for `message`, so evaluating that constructor call itself
raises `TypeError: __init__() missing 1 required positional argument:
'message'` — which is what propagates to the caller in place of the
intended `NodeReadError`. -/
def OpcClient.read_node (getNodeOk : String → Bool)
    (getValue : String → Except UExc PyVal) (c : OpcClient) (al : String) :
    OpcClient × Except PyExc PyVal :=
  if !c.is_connected then (c, .error (.opcClientError "Cliente no conectado"))
  else
    let body : OpcClient × Except PyExc PyVal :=
      match c.get_node_by_alias getNodeOk al with
      | (c1, .ok n) =>
        match getValue n with
        | .ok v => (c1, .ok v)
        | .error e => (c1, .error (.external e))
      | (c1, .error e) => (c1, .error e)
    match body with
    | (c1, .ok v) => (c1, .ok v)
    | (c1, .error _) =>
      (c1, .error (.typeError
        "NodeReadError.__init__() missing 1 required positional argument: message"))

/-- Embedding of `OpcClient.write_node`: failures of the try block are
wrapped in `NodeWriteError(alias, message, original=exc)` — `UaError`
with the UA message, anything else with the transport message. -/
def OpcClient.write_node (getNodeOk : String → Bool)
    (setValue : String → PyVal → Except UExc Unit) (c : OpcClient)
    (al : String) (value : PyVal) : OpcClient × Except PyExc Unit :=
  if !c.is_connected then (c, .error (.opcClientError "Cliente no conectado"))
  else
    let body : OpcClient × Except PyExc Unit :=
      match c.get_node_by_alias getNodeOk al with
      | (c1, .ok n) =>
        match setValue n value with
        | .ok _ => (c1, .ok ())
        | .error e => (c1, .error (.external e))
      | (c1, .error e) => (c1, .error e)
    match body with
    | (c1, .ok _) => (c1, .ok ())
    | (c1, .error e) =>
      match e with
      | .external (.uaError code) =>
        (c1, .error (.nodeWriteError al "Error UA al escribir"
          (some (.external (.uaError code)))))
      | e1 =>
        (c1, .error (.nodeWriteError al "Error de transporte al escribir" (some e1)))

/-- Outcome of opening and JSON-decoding the alias file in
`load_aliases_from_json`. -/
inductive JsonReadResult where
  | ok (m : List (String × String))
  | fileNotFound
  | decodeError
  | otherError
deriving DecidableEq, Repr

/-- Embedding of `OpcClient.load_aliases_from_json`: the resolved-node
cache is cleared unconditionally first; on success the alias map is
replaced by the decoded mapping; on any failure the alias map is set to
empty and an `OpcClientError` is raised. -/
def OpcClient.load_aliases_from_json (res : JsonReadResult) (c : OpcClient) :
    OpcClient × Except PyExc Unit :=
  let c0 := { c with nodes := [] }
  match res with
  | .ok m => ({ c0 with aliases := m }, .ok ())
  | .fileNotFound =>
    ({ c0 with aliases := [] }, .error (.opcClientError "No se encuentra el JSON de alias"))
  | .decodeError =>
    ({ c0 with aliases := [] }, .error (.opcClientError "El archivo no contiene JSON válido"))
  | .otherError =>
    ({ c0 with aliases := [] }, .error (.opcClientError "Error inesperado al leer"))

/-! ## Address space model -/

/-- A protocol node identity: numeric (server-assigned) or string
(taken from the CSV `nodeid` column) identifier in a namespace. -/
inductive Ident where
  | num (n : Nat)
  | str (s : String)
deriving DecidableEq, Repr

/-- A `ua.NodeId`: namespace index plus identifier. -/
structure NodeId where
  ns : Nat
  ident : Ident
deriving DecidableEq, Repr

/-- Embedding of `NodeId.to_string()`: the namespace part is printed only
for a nonzero namespace index. -/
def NodeId.toStr (n : NodeId) : String :=
  let base := match n.ident with
    | .num i => "i=" ++ toString i
    | .str s => "s=" ++ s
  if n.ns == 0 then base else "ns=" ++ toString n.ns ++ ";" ++ base

/-- A `ua.QualifiedName`: browse name plus namespace index. -/
structure QName where
  ns : Nat
  name : String
deriving DecidableEq, Repr

/-- The node classes the code distinguishes (`ua.NodeClass.Variable`
versus everything else). -/
inductive NodeClass where
  | object
  | var
deriving DecidableEq, Repr

/-- Attributes of one node in the address space. -/
structure ANodeInfo where
  nid : NodeId
  bname : QName
  cls : NodeClass
  writable : Bool
  value : Option PyVal
deriving DecidableEq, Repr

mutual

/-- A subtree of the address space: a node and its children in insertion
order. -/
inductive ATree where
  | node (info : ANodeInfo) (children : AForest)

/-- An ordered list of sibling subtrees. -/
inductive AForest where
  | nil
  | cons (t : ATree) (ts : AForest)

end

mutual

/-- All node identifiers of a subtree, root first. -/
def allIdsT : ATree → List NodeId
  | .node info cs => info.nid :: allIdsF cs

/-- All node identifiers of a forest, in visit order. -/
def allIdsF : AForest → List NodeId
  | .nil => []
  | .cons t ts => allIdsT t ++ allIdsF ts

end

mutual

/-- Find the subtree rooted at a given node identifier. -/
def findT (id : NodeId) : ATree → Option ATree
  | .node info cs =>
    if info.nid = id then some (.node info cs) else findF id cs

/-- Find, in a forest, the subtree rooted at a given node identifier. -/
def findF (id : NodeId) : AForest → Option ATree
  | .nil => none
  | .cons t ts =>
    match findT id t with
    | some u => some u
    | none => findF id ts

end

/-- Root identifier of a subtree. -/
def rootId : ATree → NodeId
  | .node info _ => info.nid

/-- Children of a subtree. -/
def childrenOf : ATree → AForest
  | .node _ cs => cs

/-- First child of a forest carrying a given browse name — the
single-element `get_child([f"{ns}:{name}"])` lookup. -/
def childQN (q : QName) : AForest → Option ATree
  | .nil => none
  | .cons t ts =>
    match t with
    | .node info _ => if info.bname = q then some t else childQN q ts

/-- Append a subtree at the end of a forest. -/
def appendF : AForest → ATree → AForest
  | .nil, u => .cons u .nil
  | .cons t ts, u => .cons t (appendF ts u)

mutual

/-- Append a node as the last child of the node with identifier `pid`
(the caller has checked that `pid` is present). -/
def addUnderT (pid : NodeId) (info : ANodeInfo) : ATree → ATree
  | .node i cs =>
    if i.nid = pid then .node i (appendF cs (.node info .nil))
    else .node i (addUnderF pid info cs)

/-- `addUnderT` mapped across a forest. -/
def addUnderF (pid : NodeId) (info : ANodeInfo) : AForest → AForest
  | .nil => .nil
  | .cons t ts => .cons (addUnderT pid info t) (addUnderF pid info ts)

end

mutual

/-- Recursive deletion inside a subtree: drop every child subtree whose
root carries the given identifier (the whole subtree goes with it, as in
`delete_nodes(..., recursive=True)`). -/
def delT (id : NodeId) : ATree → ATree
  | .node i cs => .node i (delF id cs)

/-- Recursive deletion in a forest. -/
def delF (id : NodeId) : AForest → AForest
  | .nil => .nil
  | .cons t ts =>
    match t with
    | .node i cs =>
      if i.nid = id then delF id ts
      else .cons (.node i (delF id cs)) (delF id ts)

end

mutual

/-- Set the writable attribute of the node with the given identifier
(`var.set_writable()`). -/
def setWritT (id : NodeId) : ATree → ATree
  | .node i cs =>
    if i.nid = id then .node { i with writable := true } cs
    else .node i (setWritF id cs)

/-- `setWritT` mapped across a forest. -/
def setWritF (id : NodeId) : AForest → AForest
  | .nil => .nil
  | .cons t ts => .cons (setWritT id t) (setWritF id ts)

end

/-- The AddNodes service of the internal server, as used through
`add_folder`/`add_variable`: a requested identifier already in the address
space yields `BadNodeIdExists`; a parent not in the address space yields
`BadParentNodeIdInvalid`; otherwise the node is appended under its
parent. -/
def addNode (f : AForest) (parent : NodeId) (info : ANodeInfo) : Except UExc AForest :=
  if (allIdsF f).contains info.nid then .error (.uaError BadNodeIdExists)
  else
    match findF parent f with
    | none => .error (.uaError BadParentNodeIdInvalid)
    | some _ => .ok (addUnderF parent info f)


/-! ## Server side (`opcua_server.py`) -/

/-- The protocol server handle (`opcua.Server`): its address space as the
forest of nodes under the Root node, a counter for server-assigned numeric
node identifiers, and the size of the namespace array (two standard
entries before any registration, so the first registered namespace gets
index 2). -/
structure SrvHandle where
  forest : AForest
  nextId : Nat
  nsCount : Nat

/-- The well-known identifier of the standard Objects folder (ns=0;i=85). -/
def objectsId : NodeId := ⟨0, .num 85⟩

/-- The Objects folder as initially present in a fresh address space.
The rest of the standard namespace-0 address space is omitted (see the
file header). -/
def objectsTree : ATree :=
  .node ⟨objectsId, ⟨0, "Objects"⟩, .object, false, none⟩ .nil

/-- A freshly constructed `opcua.Server` with its endpoint set. -/
def freshHandle : SrvHandle :=
  { forest := .cons objectsTree .nil, nextId := 2000, nsCount := 2 }

/-- State of an `OpcServer` instance, mirroring the attributes set by
`__init__`.  The source attribute `_namespace` is called `namespaceName`
because `namespace` is a reserved word in Lean. -/
structure OpcServer where
  endpoint_url : String
  namespaceName : String
  files_dir : String
  nodes_input : String
  nodes_output : String
  server : Option SrvHandle
  nodes : Option (List (String × NodeDef))
  resolved_nodes : Option (List NodeId)
  idx : Option Nat
  started : Option Bool

/-- Embedding of the `is_created` property (`self._server is not None`). -/
def OpcServer.is_created (s : OpcServer) : Bool := s.server.isSome

/-- Embedding of the `is_started` property
(`self._started is not None and self._started`). -/
def OpcServer.is_started (s : OpcServer) : Bool := s.started.getD false

/-- Embedding of the `alias_is_loaded` property (`self._nodes is not None`). -/
def OpcServer.alias_is_loaded (s : OpcServer) : Bool := s.nodes.isSome

/-- Embedding of the `idx_is_registered` property (`self._idx is not None`). -/
def OpcServer.idx_is_registered (s : OpcServer) : Bool := s.idx.isSome

/-- Embedding of the `nodes_resolved` property (`bool(self._resolved_nodes)`:
false for `None` and for the empty list). -/
def OpcServer.nodes_resolved (s : OpcServer) : Bool :=
  match s.resolved_nodes with
  | some (_ :: _) => true
  | _ => false

/-- Embedding of `OpcServer._check_general_invariants` as the predicate the
assertions test: index present exactly when the handle is present; a
truthy started flag requires both; the endpoint begins with the protocol
scheme; the namespace is nonempty.  (`True` means the assertions pass.) -/
def OpcServer.check_general_invariants (s : OpcServer) : Bool :=
  (match s.server, s.idx with
   | none, none => true
   | some _, some _ => true
   | _, _ => false) &&
  (match s.started with
   | some true => s.server.isSome && s.idx.isSome
   | _ => true) &&
  ("opc.tcp://".toList.isPrefixOf s.endpoint_url.toList) &&
  !(s.namespaceName == "")

/-- Embedding of `OpcServer._register_index`: fails if no handle, else
registers the namespace (oracle `regOk` for the underlying call), records
the returned index, and runs the general invariant check. -/
def OpcServer.register_index (regOk : Bool) (s : OpcServer) :
    OpcServer × Except PyExc Unit :=
  match s.server with
  | none =>
    (s, .error (.opcServerError s.endpoint_url "Servidor no inicializado" none))
  | some h =>
    if regOk then
      let s1 := { s with server := some { h with nsCount := h.nsCount + 1 },
                         idx := some h.nsCount }
      if s1.check_general_invariants then (s1, .ok ())
      else (s1, .error (.assertionError "invariantes generales"))
    else
      (s, .error (.opcServerError s.endpoint_url "Error al registrar namespace"
        (some (.external (.other 1)))))

/-- Embedding of `OpcServer.create`.  The two occurrences of
`self._check_general_invariants` in the source (lines 77 and 102) lack
call parentheses, so no invariant check actually runs in `create`.
Oracle `handleOk` covers `Server()` and `set_endpoint`; `regOk` covers
`register_namespace`.  On any failure inside the try block the handle and
index are reset and an `OpcServerError` wrapping the cause is raised. -/
def OpcServer.create (handleOk regOk : Bool) (s : OpcServer) :
    OpcServer × Except PyExc Unit :=
  if s.is_created then
    if !s.idx_is_registered then s.register_index regOk
    else (s, .ok ())
  else
    if handleOk then
      let s1 := { s with server := some freshHandle }
      match s1.register_index regOk with
      | (s2, .ok _) => (s2, .ok ())
      | (s2, .error e) =>
        ({ s2 with server := none, idx := none },
         .error (.opcServerError s.endpoint_url "Fallo en la creación del servidor"
           (some e)))
    else
      ({ s with server := none, idx := none },
       .error (.opcServerError s.endpoint_url "Fallo en la creación del servidor"
         (some (.external (.other 2)))))

/-- Embedding of `OpcServer.stop`: nothing to do when no handle exists;
otherwise the underlying stop is attempted (its failure, oracle `stopOk`,
is only logged), the started flag is lowered, on `clean` the handle, index
and point-definition cache are additionally cleared, and the general
invariant check runs before returning `True`. -/
def OpcServer.stop (clean : Bool) (stopOk : Bool) (s : OpcServer) :
    OpcServer × Except PyExc Bool :=
  match s.server with
  | none => (s, .ok false)
  | some _ =>
    let _ := stopOk
    let s1 := { s with started := some false }
    let s2 := if clean then { s1 with server := none, idx := none, nodes := none }
              else s1
    if s2.check_general_invariants then (s2, .ok true)
    else (s2, .error (.assertionError "invariantes generales"))

/-- The body of one start attempt: the invariant check, the assertion
that a handle exists, the underlying start call itself, and — on success
— the raising of the started flag followed by the invariant check; all of
this runs inside the `try`, so any failure is reported as the attempt's
exception. -/
def startBody (att : Nat → Except UExc Unit) (attempt : Nat) (s : OpcServer) :
    OpcServer × Except PyExc Unit :=
  if !s.check_general_invariants then
    (s, .error (.assertionError "invariantes generales"))
  else if s.server.isNone then
    (s, .error (.assertionError "server is not None"))
  else
    match att attempt with
    | .ok _ =>
      let s1 := { s with started := some true }
      if s1.check_general_invariants then (s1, .ok ())
      else (s1, .error (.assertionError "invariantes generales"))
    | .error e => (s, .error (.external e))

/-- The retry loop of `OpcServer.start` over the remaining attempt numbers.
The whole loop body runs inside `try`, so a failing invariant assertion is
caught like any other attempt failure.  On the last failed attempt a
best-effort `stop(True)` runs with all its exceptions swallowed, the
started flag is lowered, and the loop falls through to the final
invariant check and the `OpcServerError` carrying the last cause. -/
def OpcServer.startLoop (att : Nat → Except UExc Unit) (stopOk : Bool) :
    List Nat → Option PyExc → OpcServer → OpcServer × Except PyExc Bool
  | [], lastExc, s =>
    if s.check_general_invariants then
      (s, .error (.opcServerError s.endpoint_url
        "Se han agotado los intentos de arranque." lastExc))
    else (s, .error (.assertionError "invariantes generales"))
  | attempt :: rest, _lastExc, s =>
    match startBody att attempt s with
    | (s1, .ok _) => (s1, .ok true)
    | (s1, .error e) =>
      match rest with
      | _ :: _ => OpcServer.startLoop att stopOk rest (some e) s1
      | [] =>
        let s2 := if s1.server.isSome then (s1.stop true stopOk).1 else s1
        let s3 := { s2 with started := some false }
        OpcServer.startLoop att stopOk rest (some e) s3

/-- Embedding of `OpcServer.start`: argument validation, the general
invariant check, ensuring the handle is created and the namespace
registered, idempotence when already started, then up to `retries`
attempts of the underlying start call (oracle `att`, indexed by attempt
number). -/
def OpcServer.start (retries : Int) (backoff_s : Rat) (handleOk regOk : Bool)
    (att : Nat → Except UExc Unit) (stopOk : Bool) (s : OpcServer) :
    OpcServer × Except PyExc Bool :=
  if retries < 1 then (s, .error (.valueError "retries debe ser >= 1"))
  else if backoff_s ≤ 0 then (s, .error (.valueError "backoff_s debe ser > 0"))
  else if !s.check_general_invariants then
    (s, .error (.assertionError "invariantes generales"))
  else
    let ensure : OpcServer × Except PyExc Unit :=
      if !s.is_created then s.create handleOk regOk
      else if !s.idx_is_registered then s.register_index regOk
      else (s, .ok ())
    match ensure with
    | (s1, .error e) => (s1, .error e)
    | (s1, .ok _) =>
      if s1.is_started then (s1, .ok true)
      else s1.startLoop att stopOk (List.range' 1 retries.toNat) none

/-! ## Definition loading (`load_nodes_from_csv`) -/

/-- Load statistics returned by `load_nodes_from_csv`. -/
structure LoadStats where
  total_rows : Nat
  loaded : Nat
  skipped : Nat
  duplicates : Nat
  errors : Nat
deriving DecidableEq, Repr

/-- Outcome of opening the CSV file and reading its header. -/
inductive CsvSource where
  | missing
  | unreadable
  | content (header : List String) (rows : List Row)

/-- The default `required_fields` tuple. -/
def requiredFields : List String :=
  ["alias", "nodeid", "datatype", "initial", "folder", "writable"]

/-- Per-row normalisation: `strip` on every string field. -/
def Row.norm (r : Row) : Row :=
  ⟨pyStrip r.aliasName, pyStrip r.nodeid, pyStrip r.datatype,
   pyStrip r.initial, pyStrip r.folder, pyStrip r.writable⟩

/-- The `any(not norm_row.get(c) for c in required_fields)` test: some
required field is empty after normalisation. -/
def Row.hasEmptyRequired (r : Row) : Bool :=
  r.aliasName == "" || r.nodeid == "" || r.datatype == "" ||
  r.initial == "" || r.folder == "" || r.writable == ""

/-- The per-row loop of `load_nodes_from_csv`: each row increments
`total_rows` and lands in exactly one of skipped (an empty required
field), duplicates (alias already present), errors (`validate_types`
raised) or loaded (appended to the accumulating mapping). -/
def processRows : List Row → List (String × NodeDef) → LoadStats →
    LoadStats × List (String × NodeDef)
  | [], nodes, stats => (stats, nodes)
  | row :: rest, nodes, stats =>
    let stats := { stats with total_rows := stats.total_rows + 1 }
    let nr := row.norm
    if nr.hasEmptyRequired then
      processRows rest nodes { stats with skipped := stats.skipped + 1 }
    else if nodes.any (fun p => p.1 == nr.aliasName) then
      processRows rest nodes { stats with duplicates := stats.duplicates + 1 }
    else
      match validate_types nr with
      | .error _ =>
        processRows rest nodes { stats with errors := stats.errors + 1 }
      | .ok nd =>
        processRows rest (nodes ++ [(nr.aliasName, nd)])
          { stats with loaded := stats.loaded + 1 }

/-- Embedding of `OpcServer._check_nodes_invariants` as a predicate: keys
unique and every alias a nonempty string.  (The remaining source
assertions — dict shape, required keys, datatype a `ua.VariantType`
member, `initial` not `None`, `writable` a bool — hold by construction of
`NodeDef` and are therefore always true in the model.) -/
def checkNodesInvariants (nodes : List (String × NodeDef)) : Bool :=
  decide ((nodes.map Prod.fst).Nodup) && nodes.all (fun p => !(p.1 == ""))

/-- Embedding of `OpcServer.load_nodes_from_csv`: structural failures
(missing or unreadable file, empty header, missing required columns)
raise `OpcServerError`; otherwise the rows are processed one by one
starting from a defensive copy of the previously committed mapping, the
result is committed, and the node invariant check either confirms the
commit or rolls back to the previous mapping and raises. -/
def OpcServer.load_nodes_from_csv (src : CsvSource) (s : OpcServer) :
    OpcServer × Except PyExc LoadStats :=
  match src with
  | .missing =>
    (s, .error (.opcServerError s.endpoint_url "El archivo no existe"
      (some (.external (.other 3)))))
  | .unreadable =>
    (s, .error (.opcServerError s.endpoint_url
      "Error inesperado en la carga fichero CSV" (some (.external (.other 4)))))
  | .content header rows =>
    if header.isEmpty then
      (s, .error (.opcServerError s.endpoint_url "CSV sin cabecera" none))
    else if !(requiredFields.all (fun c => header.contains c)) then
      (s, .error (.opcServerError s.endpoint_url "Faltan columnas obligatorias" none))
    else
      let start : List (String × NodeDef) := match s.nodes with
        | none => []
        | some m => m
      let (stats, nodes) := processRows rows start ⟨0, 0, 0, 0, 0⟩
      let s1 := { s with nodes := some nodes }
      if checkNodesInvariants nodes then (s1, .ok stats)
      else ({ s1 with nodes := s.nodes },
        .error (.opcServerError s.endpoint_url "Invariantes de nodos incumplidas"
          (some (.assertionError "invariantes de nodos"))))


/-! ## Node resolution and export -/

/-- UA status code `BadNoMatch` (a `get_child` path that matches nothing). -/
def BadNoMatch : Nat := 0x806F0000

/-- Python dict assignment `dic[k] = v` on an insertion-ordered
association list: update in place when the key exists, append otherwise. -/
def dictSet (d : List (String × String)) (k v : String) : List (String × String) :=
  if d.any (fun p => p.1 == k) then d.map (fun p => if p.1 == k then (k, v) else p)
  else d ++ [(k, v)]

/-- Python dict lookup `dic.get(k)` on the same representation. -/
def dictGet (d : List (String × String)) (k : String) : Option String :=
  (d.find? (fun p => p.1 == k)).map Prod.snd

mutual

/-- Embedding of `opcua_lib.build_node_dict`: walk all descendants of
`root_node`; for every child in order, if it is a Variable matching the
namespace filter, store `dic[browse_name] = nodeid_string`, then recurse
into the child.  (The source skips a child whose browse name or class
cannot be read; in the model every node reports both.) -/
def build_node_dict (root_node : ATree) (dic : List (String × String))
    (idx_filter : Option Nat) : List (String × String) :=
  match root_node with
  | .node _ cs => buildChildren cs dic idx_filter

/-- The `for child in children` loop of `build_node_dict`. -/
def buildChildren : AForest → List (String × String) → Option Nat →
    List (String × String)
  | .nil, dic, _ => dic
  | .cons c cs, dic, idxf =>
    let dic1 :=
      match c with
      | .node info _ =>
        match info.cls with
        | .var =>
          match idxf with
          | none => dictSet dic info.bname.name info.nid.toStr
          | some i =>
            if info.nid.ns == i then dictSet dic info.bname.name info.nid.toStr
            else dic
        | _ => dic
    buildChildren cs (build_node_dict c dic1 idxf) idxf

end

mutual

/-- The variables a `build_node_dict` walk of this subtree visits, as
(browse name, identifier string) pairs in visit order. -/
def varsT (idxf : Option Nat) : ATree → List (String × String)
  | .node _ cs => varsF idxf cs

/-- The variables a `build_node_dict` walk of this forest visits. -/
def varsF (idxf : Option Nat) : AForest → List (String × String)
  | .nil => []
  | .cons c cs =>
    (match c with
     | .node info _ =>
       match info.cls with
       | .var =>
         match idxf with
         | none => [(info.bname.name, info.nid.toStr)]
         | some i =>
           if info.nid.ns == i then [(info.bname.name, info.nid.toStr)] else []
       | _ => []) ++ varsT idxf c ++ varsF idxf cs

end

/-- Resolution statistics returned by `resolve_nodes`. -/
structure ResolveStats where
  total_rows : Nat
  resolved : Nat
  duplicates : Nat
  errors : Nat
deriving DecidableEq, Repr

/-- Embedding of `OpcServer._check_nodes_resolved` as a predicate: the
counters balance, the tracked list exists and has `resolved` entries, and
every tracked node carries the registered namespace index and lies in the
subtree of the fresh root (`root in n.get_path()`). -/
def OpcServer.check_nodes_resolved (s : OpcServer) (stats : ResolveStats)
    (root : NodeId) : Bool :=
  (stats.total_rows == stats.resolved + stats.duplicates + stats.errors) &&
  (match s.resolved_nodes with
   | none => false
   | some rn =>
     (rn.length == stats.resolved) &&
     rn.all (fun n =>
       (match s.idx with
        | some i => n.ns == i
        | none => false) &&
       (match s.server with
        | some h =>
          match findF root h.forest with
          | some rt => (allIdsT rt).contains n
          | none => false
        | none => false)))

/-- The `except AssertionError` tail of `resolve_nodes` (lines 424-432):
when the post-pass invariant check fails, the tracked node list is reset
to empty, `delete_nodes([root], recursive=True)` deletes the subtree of
the local variable `root` (the Objects node, unless a pre-existing
managed subtree was found earlier, in which case `root` was reassigned to
it), and an `OpcServerError` wrapping the assertion failure is raised;
when the check passes, the statistics are returned. -/
def OpcServer.resolveFinish (s : OpcServer) (stats : ResolveStats)
    (rootVar freshRoot : NodeId) : OpcServer × Except PyExc ResolveStats :=
  if s.check_general_invariants && s.check_nodes_resolved stats freshRoot then
    (s, .ok stats)
  else
    let s1 := { s with resolved_nodes := some ([] : List NodeId) }
    match s1.server with
    | some h =>
      ({ s1 with server := some { h with forest := delF rootVar h.forest } },
       .error (.opcServerError s.endpoint_url "Invariantes de resolucion incumplidas"
         (some (.assertionError "invariantes de resolucion"))))
    | none =>
      (s1, .error (.attributeError "NoneType object has no attribute delete_nodes"))

/-- The per-definition loop of `resolve_nodes`: look up or create the
definition folder under the fresh root, then add the variable with the
definition identifier; `BadNodeIdExists` counts as a duplicate, other UA
errors as errors; a successful add is made writable on request and
tracked.  An exception raised by `add_folder` (inside the `except`
handler of the folder lookup) propagates out of the loop with the state
reached so far. -/
def resolveLoop (idx : Nat) (freshRoot : NodeId) :
    List NodeDef → SrvHandle → List NodeId → ResolveStats →
    Except (SrvHandle × List NodeId × ResolveStats × UExc)
      (SrvHandle × List NodeId × ResolveStats)
  | [], h, rn, stats => .ok (h, rn, stats)
  | d :: rest, h, rn, stats =>
    let stats := { stats with total_rows := stats.total_rows + 1 }
    let childrenOfRoot : AForest :=
      match findF freshRoot h.forest with
      | some rt => childrenOf rt
      | none => .nil
    let folderStep : Except UExc (SrvHandle × NodeId) :=
      match childQN ⟨idx, d.folder⟩ childrenOfRoot with
      | some ft => .ok (h, rootId ft)
      | none =>
        let fid : NodeId := ⟨idx, .num h.nextId⟩
        match addNode h.forest freshRoot ⟨fid, ⟨idx, d.folder⟩, .object, false, none⟩ with
        | .ok f1 => .ok ({ h with forest := f1, nextId := h.nextId + 1 }, fid)
        | .error e => .error e
    match folderStep with
    | .error e => .error (h, rn, stats, e)
    | .ok (h1, folderId) =>
      let vid : NodeId := ⟨idx, .str d.nodeid⟩
      match addNode h1.forest folderId
          ⟨vid, ⟨idx, d.aliasName⟩, .var, false, some d.initial⟩ with
      | .error (.uaError code) =>
        if code == BadNodeIdExists then
          resolveLoop idx freshRoot rest h1 rn
            { stats with duplicates := stats.duplicates + 1 }
        else
          resolveLoop idx freshRoot rest h1 rn
            { stats with errors := stats.errors + 1 }
      | .error (.other _) =>
        resolveLoop idx freshRoot rest h1 rn
          { stats with errors := stats.errors + 1 }
      | .ok f2 =>
        let f3 := if d.writable then setWritF vid f2 else f2
        resolveLoop idx freshRoot rest { h1 with forest := f3 } (rn ++ [vid])
          { stats with resolved := stats.resolved + 1 }

/-- Embedding of `OpcServer.resolve_nodes`: the general invariant check,
ensuring created and loaded, cold edit (stop if started), deletion of any
pre-existing managed subtree named `root` under the namespace index —
note that the local variable `root` is reassigned to the pre-existing
subtree when one is found, so the fresh root folder is then requested as
a child of the node that was just deleted — creation of the fresh root
folder, the per-definition loop, the automatic restart, and the post-pass
invariant check with its cleanup handler (`resolveFinish`). -/
def OpcServer.resolve_nodes (src : CsvSource) (handleOk regOk : Bool)
    (att : Nat → Except UExc Unit) (stopOk : Bool) (s : OpcServer) :
    OpcServer × Except PyExc ResolveStats :=
  if !s.check_general_invariants then
    (s, .error (.assertionError "invariantes generales"))
  else
    let step1 : OpcServer × Except PyExc Unit :=
      if !s.is_created then s.create handleOk regOk else (s, .ok ())
    match step1 with
    | (s1, .error e) => (s1, .error e)
    | (s1, .ok _) =>
      let step2 : OpcServer × Except PyExc Unit :=
        if !s1.alias_is_loaded then
          match s1.load_nodes_from_csv src with
          | (s2, .ok _) => (s2, .ok ())
          | (s2, .error e) => (s2, .error e)
        else (s1, .ok ())
      match step2 with
      | (s2, .error e) => (s2, .error e)
      | (s2, .ok _) =>
        let step3 : OpcServer × Except PyExc Unit :=
          if s2.is_started then
            match s2.stop false stopOk with
            | (s3, .ok _) => (s3, .ok ())
            | (s3, .error e) => (s3, .error e)
          else (s2, .ok ())
        match step3 with
        | (s3, .error e) => (s3, .error e)
        | (s3, .ok _) =>
          match s3.server, s3.idx with
          | none, _ => (s3, .error (.assertionError "server is not None"))
          | some _, none => (s3, .error (.assertionError "idx is not None"))
          | some h, some idx =>
            let rootAndForest : NodeId × AForest :=
              match findF objectsId h.forest with
              | some objs =>
                match childQN ⟨idx, "root"⟩ (childrenOf objs) with
                | some old => (rootId old, delF (rootId old) h.forest)
                | none => (objectsId, h.forest)
              | none => (objectsId, h.forest)
            let rootVar := rootAndForest.1
            let h1 := { h with forest := rootAndForest.2 }
            let freshId : NodeId := ⟨idx, .num h1.nextId⟩
            match addNode h1.forest rootVar ⟨freshId, ⟨idx, "root"⟩, .object, false, none⟩ with
            | .error e => ({ s3 with server := some h1 }, .error (.external e))
            | .ok f2 =>
              let h2 := { h1 with forest := f2, nextId := h1.nextId + 1 }
              let s4 := { s3 with server := some h2,
                                  resolved_nodes := some ([] : List NodeId) }
              let defs : List NodeDef := (s4.nodes.getD []).map Prod.snd
              match resolveLoop idx freshId defs h2 [] ⟨0, 0, 0, 0⟩ with
              | .error (h3, rn, _stats1, e) =>
                ({ s4 with server := some h3, resolved_nodes := some rn },
                 .error (.external e))
              | .ok (h3, rn, stats) =>
                let s5 := { s4 with server := some h3, resolved_nodes := some rn }
                let step4 : OpcServer × Except PyExc Unit :=
                  if !s5.is_started then
                    match s5.start 3 1 handleOk regOk att stopOk with
                    | (s6, .ok _) => (s6, .ok ())
                    | (s6, .error e) => (s6, .error e)
                  else (s5, .ok ())
                match step4 with
                | (s6, .error e) => (s6, .error e)
                | (s6, .ok _) => s6.resolveFinish stats rootVar freshId

/-- Embedding of `OpcServer.export_nodes_to_json`: a no-op (with a logged
warning) when no nodes are resolved; otherwise the walk starts at the
child `0:Objects` of the root node and collects the browse-name to
identifier mapping filtered by `self._idx`, which is then written to the
output file (oracle `writeOk`; a failure is wrapped in `OpcServerError`).
The returned option is the mapping written, `none` when nothing was. -/
def OpcServer.export_nodes_to_json (writeOk : Bool) (s : OpcServer) :
    OpcServer × Except PyExc (Option (List (String × String))) :=
  if !s.nodes_resolved then (s, .ok none)
  else
    match s.server with
    | none => (s, .error (.assertionError "server is not None"))
    | some h =>
      match childQN ⟨0, "Objects"⟩ h.forest with
      | none => (s, .error (.external (.uaError BadNoMatch)))
      | some objs =>
        let dic := build_node_dict objs [] s.idx
        if writeOk then (s, .ok (some dic))
        else
          (s, .error (.opcServerError s.endpoint_url
            "Error en la exportacion de nodos a JSON" (some (.external (.other 5)))))


def csvEx : CsvSource :=
  .content ["alias", "nodeid", "datatype", "initial", "folder", "writable"]
    [⟨"A1", "n1", "int32", "1", "F", "0"⟩]

/-- An oracle under which every underlying protocol call succeeds. -/
def attOkEx : Nat → Except UExc Unit := fun _ => .ok ()

/-- A freshly constructed `OpcServer` (the state `__init__` leaves). -/
def s0Ex : OpcServer :=
  { endpoint_url := "opc.tcp://h:1", namespaceName := "ns",
    files_dir := "", nodes_input := "", nodes_output := "",
    server := none, nodes := none, resolved_nodes := none,
    idx := none, started := none }

/-- The server state after one successful `resolve_nodes` run on `csvEx`:
started, one definition loaded, one node resolved. -/
def s1Ex : OpcServer := (s0Ex.resolve_nodes csvEx true true attOkEx true).1

/-- A connected client with one known alias and an empty node cache. -/
def cEx : OpcClient := ⟨"opc.tcp://h:1", true, [("a", "i=1")], []⟩

/-- The state part of `_check_general_invariants`, i.e. the connection
invariant of the spec: namespace index present iff handle present, and a
started flag implies both. -/
def connInvariant (s : OpcServer) : Bool :=
  (s.idx.isSome == s.server.isSome) &&
  (match s.started with
   | some true => s.server.isSome && s.idx.isSome
   | _ => true)

/-- A client with a previously loaded alias map and a warm node cache. -/
def cW : OpcClient := ⟨"opc.tcp://h:1", true, [("old", "i=9")], [("old", "i=9")]⟩

/-- A created, not yet started server (handle present, index registered). -/
def sCr : OpcServer :=
  { s0Ex with server := some freshHandle, idx := some 2 }

/-- A forest whose Objects folder contains an (empty) managed root folder
in namespace 2. -/
def c3Forest : AForest :=
  .cons (.node ⟨objectsId, ⟨0, "Objects"⟩, .object, false, none⟩
    (.cons (.node ⟨⟨2, .num 2000⟩, ⟨2, "root"⟩, .object, false, none⟩ .nil) .nil)) .nil

/-- A created server owning `c3Forest`, with an empty tracked node list. -/
def sC3 : OpcServer :=
  { s0Ex with server := some ⟨c3Forest, 2001, 3⟩, idx := some 2,
              resolved_nodes := some [], started := some false }

/-- An Objects folder holding two variable nodes that share the browse
name `Dup` in namespace 2 (string identifiers `a`, visited first, and
`b`, visited second). -/
def exTree : ATree :=
  .node ⟨objectsId, ⟨0, "Objects"⟩, .object, false, none⟩
    (.cons (.node ⟨⟨2, .str "a"⟩, ⟨2, "Dup"⟩, .var, false, some (.int 0)⟩ .nil)
      (.cons (.node ⟨⟨2, .str "b"⟩, ⟨2, "Dup"⟩, .var, false, some (.int 1)⟩ .nil) .nil))

/-- A started server owning `exTree` with both variables tracked. -/
def sExp : OpcServer :=
  { s0Ex with server := some ⟨.cons exTree .nil, 2001, 3⟩, idx := some 2,
              resolved_nodes := some [⟨2, .str "a"⟩, ⟨2, .str "b"⟩],
              started := some true }


/-- A four-row CSV exercising all four load outcomes: one valid row, one
with an empty required field, one duplicate alias, one failing type cast. -/
def csvW : CsvSource :=
  .content requiredFields
    [⟨"A", "n1", "int32", "1", "F", "1"⟩,
     ⟨"B", "n2", "int32", "", "F", "1"⟩,
     ⟨"A", "n3", "int32", "2", "F", "1"⟩,
     ⟨"C", "n4", "boolean", "maybe", "F", "1"⟩]


/-- A family of distinct underlying start failures, one per attempt. -/
def excsW : Nat → UExc := fun i => .other (100 + i)


/-! ## Claim theorems -/

/-- C1: on a connected session, an underlying failure while resolving or
reading a node makes `OpcClient.read_node` raise `TypeError` — not the
documented `NodeReadError` — because the source constructs
`NodeReadError(f"...", original=exc)` without the required `message`
argument.  The first conjunct exercises the resolution failure (unknown
alias), the second the `get_value` failure; the third shows the write
path does produce a `NodeWriteError` carrying the alias and the cause. -/
theorem read_node_raises_TypeError :
    ((cEx.read_node (fun _ => true) (fun _ => .ok (.int 0)) "b").2 =
      .error (.typeError
        "NodeReadError.__init__() missing 1 required positional argument: message")) ∧
    ((cEx.read_node (fun _ => true) (fun _ => .error (.uaError 3)) "a").2 =
      .error (.typeError
        "NodeReadError.__init__() missing 1 required positional argument: message")) ∧
    ((cEx.write_node (fun _ => true) (fun _ _ => .error (.uaError 3)) "a" (.int 1)).2 =
      .error (.nodeWriteError "a" "Error UA al escribir" (some (.external (.uaError 3))))) :=
  ⟨rfl, rfl, rfl⟩

/-- C2 counterexample: after a successful resolution pass, `stop(clean=True)`
does not leave the resolved-node set empty — `_resolved_nodes` is not
touched by `stop`, so the claim as stated fails on this state. -/
theorem stop_clean_counterexample :
    ¬ ((s1Ex.stop true true).1.resolved_nodes = some [] ∨
       (s1Ex.stop true true).1.resolved_nodes = none) := by
  decide

/-- C2 (amended): for a server whose handle has been created,
`stop(clean=True)` resets the handle, the namespace index and the
point-definition cache and lowers the started flag, but retains the
resolved-node list unchanged; `stop(clean=False)` retains handle, index
and cache, with `started=False` and the resolved-node list unchanged in
both cases. -/
theorem stop_state_effects (s : OpcServer) (stopOk : Bool)
    (h : s.server.isSome = true) :
    ((s.stop true stopOk).1.server = none ∧
     (s.stop true stopOk).1.idx = none ∧
     (s.stop true stopOk).1.nodes = none ∧
     (s.stop true stopOk).1.started = some false ∧
     (s.stop true stopOk).1.resolved_nodes = s.resolved_nodes) ∧
    ((s.stop false stopOk).1.server = s.server ∧
     (s.stop false stopOk).1.idx = s.idx ∧
     (s.stop false stopOk).1.nodes = s.nodes ∧
     (s.stop false stopOk).1.started = some false ∧
     (s.stop false stopOk).1.resolved_nodes = s.resolved_nodes) := by
  obtain ⟨h0, hs⟩ := Option.isSome_iff_exists.mp h
  simp only [OpcServer.stop, hs]
  constructor <;> refine ⟨?_, ?_, ?_, ?_, ?_⟩ <;> ((repeat' split) <;> simp_all)

/-- C2 witness: the amended statement at the concrete post-resolution
state `s1Ex`. -/
theorem stop_state_effects_witness :
    ((s1Ex.stop true true).1.server = none ∧
     (s1Ex.stop true true).1.idx = none ∧
     (s1Ex.stop true true).1.nodes = none ∧
     (s1Ex.stop true true).1.started = some false ∧
     (s1Ex.stop true true).1.resolved_nodes = s1Ex.resolved_nodes) ∧
    ((s1Ex.stop false true).1.server = s1Ex.server ∧
     (s1Ex.stop false true).1.idx = s1Ex.idx ∧
     (s1Ex.stop false true).1.nodes = s1Ex.nodes ∧
     (s1Ex.stop false true).1.started = some false ∧
     (s1Ex.stop false true).1.resolved_nodes = s1Ex.resolved_nodes) :=
  stop_state_effects s1Ex true (by rfl)

/-- C4: re-running `resolve_nodes` on an unchanged loaded definition set
does not reproduce the first run's outcome: the first run resolves the
single definition, but the second run raises (`BadParentNodeIdInvalid`),
because the local variable `root` is reassigned to the pre-existing
managed subtree before that subtree is deleted, and the fresh root folder
is then requested as a child of the just-deleted node. -/
theorem resolve_nodes_second_run_raises :
    ((s0Ex.resolve_nodes csvEx true true attOkEx true).2 = .ok ⟨1, 1, 0, 0⟩) ∧
    ((s1Ex.resolve_nodes csvEx true true attOkEx true).2 =
      .error (.external (.uaError BadParentNodeIdInvalid))) :=
  ⟨rfl, rfl⟩

/-- C10: `load_aliases_from_json` clears the resolved-node cache
unconditionally at the start of every reload attempt, and on any failure
leaves the alias map empty — the previously loaded map is discarded, not
restored. -/
theorem load_aliases_reload_semantics (c : OpcClient) (res : JsonReadResult) :
    ((c.load_aliases_from_json res).1.nodes = []) ∧
    (∀ e, (c.load_aliases_from_json res).2 = .error e →
      (c.load_aliases_from_json res).1.aliases = []) ∧
    (∀ m, res = .ok m →
      (c.load_aliases_from_json res).1.aliases = m ∧
      (c.load_aliases_from_json res).2 = .ok ()) := by
  cases res <;> simp [OpcClient.load_aliases_from_json]

/-- C10 witness: a failing reload on a client with a loaded map and warm
cache leaves both empty. -/
theorem load_aliases_reload_witness :
    (cW.load_aliases_from_json .decodeError).1.nodes = [] ∧
    (cW.load_aliases_from_json .decodeError).1.aliases = [] :=
  ⟨(load_aliases_reload_semantics cW .decodeError).1,
   (load_aliases_reload_semantics cW .decodeError).2.1
     (.opcClientError "El archivo no contiene JSON válido") (by rfl)⟩


/-- The per-row loop preserves the counter balance: if the incoming
statistics balance, so do the outgoing ones. -/
theorem processRows_balance (rows : List Row) :
    ∀ (nodes : List (String × NodeDef)) (stats : LoadStats),
      stats.total_rows = stats.loaded + stats.skipped + stats.duplicates + stats.errors →
      (processRows rows nodes stats).1.total_rows =
        (processRows rows nodes stats).1.loaded +
        (processRows rows nodes stats).1.skipped +
        (processRows rows nodes stats).1.duplicates +
        (processRows rows nodes stats).1.errors := by
  induction rows with
  | nil => intro nodes stats h; simpa [processRows] using h
  | cons r rest ih =>
    intro nodes stats h
    simp only [processRows]
    split
    · exact ih _ _ (by simp; omega)
    · split
      · exact ih _ _ (by simp; omega)
      · split
        · exact ih _ _ (by simp; omega)
        · exact ih _ _ (by simp; omega)

/-- C7: whenever `load_nodes_from_csv` returns statistics, `total_rows`
equals `loaded + skipped + duplicates + errors` — every processed row is
counted in exactly one of the four outcome counters. -/
theorem load_nodes_total_balance (src : CsvSource) (s : OpcServer)
    (stats : LoadStats) (h : (s.load_nodes_from_csv src).2 = .ok stats) :
    stats.total_rows = stats.loaded + stats.skipped + stats.duplicates + stats.errors := by
  cases src with
  | missing => simp [OpcServer.load_nodes_from_csv] at h
  | unreadable => simp [OpcServer.load_nodes_from_csv] at h
  | content header rows =>
    simp only [OpcServer.load_nodes_from_csv] at h
    by_cases h1 : header.isEmpty = true
    · rw [if_pos h1] at h; exact absurd h (by simp)
    · rw [if_neg h1] at h
      by_cases h2 : (!(requiredFields.all (fun c => header.contains c))) = true
      · rw [if_pos h2] at h; exact absurd h (by simp)
      · rw [if_neg h2] at h
        rcases hp : processRows rows
            (match s.nodes with | none => [] | some m => m) ⟨0, 0, 0, 0, 0⟩ with ⟨st, nd⟩
        rw [hp] at h
        by_cases h3 : checkNodesInvariants (st, nd).2 = true
        · rw [if_pos h3] at h
          simp only at h
          cases h
          have := processRows_balance rows
            (match s.nodes with | none => [] | some m => m) ⟨0, 0, 0, 0, 0⟩ rfl
          rwa [hp] at this
        · rw [if_neg h3] at h
          exact absurd h (by simp)

/-- C7 witness: the statistics identity at a concrete four-row CSV with
one loaded, one skipped, one duplicate and one error row. -/
theorem load_nodes_total_balance_witness :
    (s0Ex.load_nodes_from_csv csvW).2 = .ok ⟨4, 1, 1, 1, 1⟩ ∧
    (⟨4, 1, 1, 1, 1⟩ : LoadStats).total_rows =
      (⟨4, 1, 1, 1, 1⟩ : LoadStats).loaded + (⟨4, 1, 1, 1, 1⟩ : LoadStats).skipped +
      (⟨4, 1, 1, 1, 1⟩ : LoadStats).duplicates + (⟨4, 1, 1, 1, 1⟩ : LoadStats).errors :=
  ⟨by rfl, load_nodes_total_balance csvW s0Ex ⟨4, 1, 1, 1, 1⟩ (by rfl)⟩

/-- `boolCast` returns `True` exactly on the truthy set and `False`
exactly on the falsy set. -/
theorem boolCast_ok (low m : String) (b : Bool) (h : boolCast low m = .ok b) :
    (pyTrueSet.contains low = true ∧ b = true) ∨
    (pyFalseSet.contains low = true ∧ b = false) := by
  unfold boolCast at h
  by_cases h1 : low ∈ pyTrueSet
  · simp [h1] at h
    exact Or.inl ⟨by simpa using h1, h⟩
  · by_cases h2 : low ∈ pyFalseSet
    · simp [h1, h2] at h
      exact Or.inr ⟨by simpa using h2, h⟩
    · simp [h1, h2] at h

/-- C8: boolean casting in `validate_types`.  For a boolean-typed row the
trimmed, lowercased `initial` is matched against the truthy set (giving
`True`) then the falsy set (giving `False`, which includes the empty
string); anything else raises `ValueError`; and the `writable` field of
every row goes through the same rule: a successfully validated row has
`writable` drawn from the two sets, and the same three-way table decides
the boolean row's outcome jointly with its `writable` field. -/
theorem boolean_casting_rule :
    (∀ (a n f init wri : String),
      validate_types ⟨a, n, "boolean", init, f, wri⟩ =
        (if pyTrueSet.contains (pyLower (pyStrip init)) then
          (if pyTrueSet.contains (pyLower (pyStrip wri)) then
            .ok ⟨a, n, .Boolean, .bool true, f, true⟩
          else if pyFalseSet.contains (pyLower (pyStrip wri)) then
            .ok ⟨a, n, .Boolean, .bool true, f, false⟩
          else .error (.valueError "Valor de 'Writable' no es booleano"))
        else if pyFalseSet.contains (pyLower (pyStrip init)) then
          (if pyTrueSet.contains (pyLower (pyStrip wri)) then
            .ok ⟨a, n, .Boolean, .bool false, f, true⟩
          else if pyFalseSet.contains (pyLower (pyStrip wri)) then
            .ok ⟨a, n, .Boolean, .bool false, f, false⟩
          else .error (.valueError "Valor de 'Writable' no es booleano"))
        else .error (.valueError "Valor inicial no es booleano"))) ∧
    (∀ (r : Row) (nd : NodeDef), validate_types r = .ok nd →
      (pyTrueSet.contains (pyLower (pyStrip r.writable)) = true ∧ nd.writable = true) ∨
      (pyFalseSet.contains (pyLower (pyStrip r.writable)) = true ∧ nd.writable = false)) := by
  constructor
  · intro a n f init wri
    have hb : TYPE_MAP.lookup (pyLower (pyStrip "boolean")) = some VariantType.Boolean := by rfl
    simp only [validate_types, hb, castInitial, boolCast, if_true, reduceIte]
    by_cases h1 : pyLower (pyStrip init) ∈ pyTrueSet <;>
      by_cases h3 : pyLower (pyStrip wri) ∈ pyTrueSet <;>
        by_cases h4 : pyLower (pyStrip wri) ∈ pyFalseSet <;>
          by_cases h2 : pyLower (pyStrip init) ∈ pyFalseSet <;>
            simp [h1, h2, h3, h4]
  · intro r nd h
    unfold validate_types at h
    rcases hl : List.lookup (pyLower (pyStrip r.datatype)) TYPE_MAP with _ | vt
    · simp only [hl] at h
      exact Except.noConfusion h
    · simp only [hl] at h
      rcases hi : castInitial vt (pyStrip r.initial) with e | iv
      · simp only [hi] at h
        exact Except.noConfusion h
      · simp only [hi] at h
        rcases hw : boolCast (pyLower (pyStrip r.writable))
            "Valor de 'Writable' no es booleano" with e | w
        · simp only [hw] at h
          exact Except.noConfusion h
        · simp only [hw] at h
          cases h
          exact boolCast_ok _ _ _ hw

/-- C8 witness: the rule at concrete inputs — "SÍ" (truthy after
lowercasing), the empty string (falsy), and an unparseable value. -/
theorem boolean_casting_rule_witness :
    validate_types ⟨"x", "n", "boolean", "SÍ", "G", ""⟩ =
      .ok ⟨"x", "n", .Boolean, .bool true, "G", false⟩ ∧
    validate_types ⟨"x", "n", "boolean", "maybe", "G", "1"⟩ =
      .error (.valueError "Valor inicial no es booleano") ∧
    ((pyTrueSet.contains (pyLower (pyStrip "1")) = true ∧ true = true) ∨
     (pyFalseSet.contains (pyLower (pyStrip "1")) = true ∧ true = false)) := by
  refine ⟨?_, ?_, ?_⟩
  · have h := boolean_casting_rule.1 "x" "n" "G" "SÍ" ""
    simpa using h
  · have h := boolean_casting_rule.1 "x" "n" "G" "maybe" "1"
    simpa using h
  · exact boolean_casting_rule.2 ⟨"y", "n2", "string", "v", "G", "1"⟩
      ⟨"y", "n2", .String, .str "v", "G", true⟩ (by rfl)


/-- The general invariant check passes on a fully cleared state whenever
it passed on the original state (endpoint and namespace are unchanged). -/
theorem check_general_invariants_cleared (s : OpcServer)
    (h : s.check_general_invariants = true) :
    OpcServer.check_general_invariants
      { s with server := none, idx := none, nodes := none, started := some false } = true := by
  unfold OpcServer.check_general_invariants at h ⊢
  simp_all

/-- One failing attempt with at least one attempt remaining keeps the
state and records the attempt's exception as the last cause. -/
theorem startLoop_step (att : Nat → Except UExc Unit) (stopOk : Bool)
    (attempt b : Nat) (l : List Nat) (le : Option PyExc) (s : OpcServer)
    (e : UExc) (hs : s.check_general_invariants = true)
    (hsrv : s.server.isSome = true) (he : att attempt = .error e) :
    OpcServer.startLoop att stopOk (attempt :: b :: l) le s =
      OpcServer.startLoop att stopOk (b :: l) (some (.external e)) s := by
  obtain ⟨h0, hs0⟩ := Option.isSome_iff_exists.mp hsrv
  conv_lhs => rw [OpcServer.startLoop]
  simp only [startBody, hs, hs0, he, Bool.not_true, Bool.false_eq_true, if_false,
    Option.isNone_some]

/-- A single last failing attempt performs the best-effort clean stop and
falls through to the final check and the wrapping `OpcServerError`. -/
theorem startLoop_last (att : Nat → Except UExc Unit) (stopOk : Bool)
    (attempt : Nat) (le : Option PyExc) (s : OpcServer) (e : UExc)
    (hs : s.check_general_invariants = true)
    (hsrv : s.server.isSome = true) (he : att attempt = .error e) :
    OpcServer.startLoop att stopOk [attempt] le s =
      ({ s with server := none, idx := none, nodes := none, started := some false },
       .error (.opcServerError s.endpoint_url
         "Se han agotado los intentos de arranque." (some (.external e)))) := by
  obtain ⟨h0, hs0⟩ := Option.isSome_iff_exists.mp hsrv
  have hclean := check_general_invariants_cleared s hs
  conv_lhs => rw [OpcServer.startLoop]
  simp only [startBody, hs, hs0, he, Bool.not_true, Bool.false_eq_true, if_false,
    Option.isNone_some, OpcServer.stop, Option.isSome_some, if_true]
  simp [OpcServer.startLoop, hclean]

/-- When every underlying start attempt fails, the retry loop of `start`
ends in the cleared state raising an `OpcServerError` that carries the
exception of the final attempt. -/
theorem startLoop_all_fail (excs : Nat → UExc) (stopOk : Bool) (s : OpcServer)
    (hs : s.check_general_invariants = true) (hsrv : s.server.isSome = true) :
    ∀ (k a : Nat) (le : Option PyExc),
      OpcServer.startLoop (fun i => .error (excs i)) stopOk (List.range' a (k + 1)) le s =
        ({ s with server := none, idx := none, nodes := none, started := some false },
         .error (.opcServerError s.endpoint_url
           "Se han agotado los intentos de arranque." (some (.external (excs (a + k)))))) := by
  intro k
  induction k with
  | zero =>
    intro a le
    simpa using startLoop_last (fun i => .error (excs i)) stopOk a le s (excs a) hs hsrv rfl
  | succ n ih =>
    intro a le
    have harith : a + 1 + n = a + (n + 1) := by omega
    have hstep := startLoop_step (fun i => .error (excs i)) stopOk a (a + 1)
      (List.range' (a + 1 + 1) n) le s (excs a) hs hsrv rfl
    have ihh := ih (a + 1) (some (.external (excs a)))
    simp only [List.range'] at ihh ⊢
    rw [hstep, ihh, harith]

/-- C5: if every one of the `retries` attempts of the underlying start
call fails, `start` performs a best-effort clean stop (whose own outcome
is swallowed) and raises an `OpcServerError` whose original cause is the
exception of the last attempt, leaving the handle, the namespace index
and the point-definition cache all absent and the started flag lowered. -/
theorem start_exhausted_rollback (retries : Int) (backoff_s : Rat)
    (excs : Nat → UExc) (handleOk regOk stopOk : Bool) (s : OpcServer)
    (hr : 1 ≤ retries) (hb : 0 < backoff_s)
    (hs : s.check_general_invariants = true)
    (hsrv : s.server.isSome = true) (hidx : s.idx.isSome = true)
    (hnst : s.is_started = false) :
    s.start retries backoff_s handleOk regOk (fun i => .error (excs i)) stopOk =
      ({ s with server := none, idx := none, nodes := none, started := some false },
       .error (.opcServerError s.endpoint_url
         "Se han agotado los intentos de arranque."
         (some (.external (excs retries.toNat))))) := by
  unfold OpcServer.start
  rw [if_neg (by omega : ¬ retries < 1)]
  rw [if_neg (not_le.mpr hb)]
  rw [if_neg (by simp [hs])]
  simp only [OpcServer.is_created, OpcServer.idx_is_registered, hsrv, hidx,
    Bool.not_true, Bool.false_eq_true, if_false]
  simp only [hnst, Bool.false_eq_true, if_false]
  obtain ⟨k, hk⟩ : ∃ k, retries.toNat = k + 1 := ⟨retries.toNat - 1, by omega⟩
  rw [hk]
  have hfin := startLoop_all_fail excs stopOk s hs hsrv k 1 none
  rw [hfin]
  have h1k : 1 + k = retries.toNat := by omega
  rw [h1k, hk]

/-- C5 witness: two failing attempts on a created server roll the state
back to absent handle and index, and the raised error carries the second
attempt's exception. -/
theorem start_exhausted_rollback_witness :
    sCr.start 2 1 true true (fun i => .error (excsW i)) true =
      ({ sCr with server := none, idx := none, nodes := none, started := some false },
       .error (.opcServerError sCr.endpoint_url
         "Se han agotado los intentos de arranque."
         (some (.external (excsW (2 : Int).toNat))))) :=
  start_exhausted_rollback 2 1 excsW true true true sCr (by decide)
    (by norm_num) (by rfl) (by rfl) (by rfl) (by rfl)


/-- First component of an `if` whose branches share it. -/
theorem fst_ite_pair {α β : Type} {c : Prop} [Decidable c] (x : α) (a b : β) :
    (if c then (x, a) else (x, b)).1 = x := by
  split <;> rfl

/-- `register_index` preserves the connection invariant. -/
theorem register_index_connInvariant (regOk : Bool) (s : OpcServer)
    (h : connInvariant s = true) :
    connInvariant (s.register_index regOk).1 = true := by
  unfold connInvariant at h ⊢
  unfold OpcServer.register_index
  rcases hsv : s.server with _ | hh <;> rcases hix : s.idx with _ | ix <;>
    cases regOk <;> rcases hst : s.started with _ | b <;> (try cases b) <;>
      simp_all <;> (repeat' split) <;> simp_all

/-- A state whose handle and index are both present satisfies the
connection invariant. -/
theorem connInvariant_of_both (s : OpcServer) (h1 : s.server.isSome = true)
    (h2 : s.idx.isSome = true) : connInvariant s = true := by
  unfold connInvariant
  rcases hst : s.started with _ | b <;> (try cases b) <;> simp_all

/-- Clearing the handle and index keeps the invariant as long as the
started flag is not raised. -/
theorem connInvariant_cleared_of_not_started (s : OpcServer)
    (hst : s.started ≠ some true) :
    connInvariant { s with server := none, idx := none } = true := by
  unfold connInvariant
  rcases hx : s.started with _ | b <;> (try cases b) <;> simp_all

/-- Lowering the started flag keeps the invariant. -/
theorem connInvariant_set_started_false (s : OpcServer)
    (h : connInvariant s = true) :
    connInvariant { s with started := some false } = true := by
  unfold connInvariant at h ⊢
  rw [Bool.and_eq_true] at h
  simp [h.1]

/-- `register_index` either leaves the state unchanged (raising an error)
or produces a state with handle and index both present and the started
flag unchanged. -/
theorem register_index_spec (regOk : Bool) (s : OpcServer) :
    ((s.register_index regOk).1 = s ∧ ∃ e, (s.register_index regOk).2 = .error e) ∨
    ((s.register_index regOk).1.server.isSome = true ∧
     (s.register_index regOk).1.idx.isSome = true ∧
     (s.register_index regOk).1.started = s.started) := by
  unfold OpcServer.register_index
  rcases hsv : s.server with _ | hh
  · exact Or.inl ⟨rfl, _, rfl⟩
  · cases regOk
    · exact Or.inl ⟨rfl, _, rfl⟩
    · right
      refine ⟨?_, ?_, ?_⟩ <;> (repeat' split) <;> simp_all [fst_ite_pair]

/-- `create` preserves the connection invariant, on success and on
failure. -/
theorem create_connInvariant (handleOk regOk : Bool) (s : OpcServer)
    (h : connInvariant s = true) :
    connInvariant (s.create handleOk regOk).1 = true := by
  unfold OpcServer.create
  by_cases hc : s.is_created = true
  · rw [if_pos hc]
    by_cases hi : (!s.idx_is_registered) = true
    · rw [if_pos hi]
      exact register_index_connInvariant regOk s h
    · rw [if_neg hi]
      simpa using h
  · rw [if_neg hc]
    have hsv : s.server = none := by
      unfold OpcServer.is_created at hc
      simpa [Option.not_isSome_iff_eq_none] using hc
    have hst : s.started ≠ some true := by
      unfold connInvariant at h
      rcases hx : s.started with _ | b
      · simp
      · cases b
        · simp
        · rw [hsv, hx] at h
          simp at h
    by_cases hok : handleOk = true
    · rw [if_pos hok]
      rcases hreg : OpcServer.register_index regOk { s with server := some freshHandle }
        with ⟨s2, r⟩
      have hspec := register_index_spec regOk { s with server := some freshHandle }
      rw [hreg] at hspec
      dsimp only at hspec
      simp only [hreg]
      rcases r with e | u
      · have hs2st : s2.started ≠ some true := by
          rcases hspec with ⟨hq, _⟩ | ⟨_, _, h3⟩
          · rw [hq]; simpa using hst
          · rw [h3]; simpa using hst
        simpa using connInvariant_cleared_of_not_started s2 hs2st
      · rcases hspec with ⟨_, e0, he0⟩ | ⟨h1, h2, _⟩
        · exact absurd he0 (by simp)
        · simpa using connInvariant_of_both s2 h1 h2
    · rw [if_neg hok]
      simpa using connInvariant_cleared_of_not_started s hst

/-- `stop` preserves the connection invariant, with and without `clean`. -/
theorem stop_connInvariant (clean stopOk : Bool) (s : OpcServer)
    (h : connInvariant s = true) :
    connInvariant (s.stop clean stopOk).1 = true := by
  unfold connInvariant at h ⊢
  unfold OpcServer.stop
  rcases hsv : s.server with _ | hh <;> rcases hix : s.idx with _ | ix <;>
    cases clean <;> rcases hst : s.started with _ | b <;> (try cases b) <;>
      simp_all <;> (repeat' split) <;> simp_all

/-- One start attempt preserves the connection invariant regardless of
its outcome. -/
theorem startBody_connInvariant (att : Nat → Except UExc Unit) (a : Nat)
    (s : OpcServer) (h : connInvariant s = true) :
    connInvariant (startBody att a s).1 = true := by
  unfold startBody
  by_cases hchk : s.check_general_invariants = true
  · rw [if_neg (by simp [hchk])]
    rcases hsv : s.server with _ | hh
    · rw [if_pos (by simp [hsv])]
      simpa using h
    · rw [if_neg (by simp [hsv])]
      rcases hatt : att a with e | u
      · simpa using h
      · have h2 : s.idx.isSome = true := by
          unfold connInvariant at h
          rw [Bool.and_eq_true] at h
          have hbe := h.1
          rw [beq_iff_eq] at hbe
          rw [hsv] at hbe
          simpa using hbe
        have hconn : connInvariant
            { s with server := some hh, started := some true } = true := by
          apply connInvariant_of_both <;> simp [h2]
        rw [fst_ite_pair]
        exact hconn
  · rw [if_pos (by simp [hchk])]
    simpa using h

/-- The retry loop of `start` preserves the connection invariant for an
arbitrary attempt oracle. -/
theorem startLoop_connInvariant (att : Nat → Except UExc Unit) (stopOk : Bool) :
    ∀ (l : List Nat) (le : Option PyExc) (s : OpcServer),
      connInvariant s = true →
      connInvariant (OpcServer.startLoop att stopOk l le s).1 = true := by
  intro l
  induction l with
  | nil =>
    intro le s h
    unfold OpcServer.startLoop
    split <;> simpa using h
  | cons a rest ih =>
    intro le s h
    conv_lhs => rw [OpcServer.startLoop]
    rcases hb : startBody att a s with ⟨s1, r⟩
    have h1 : connInvariant s1 = true := by
      have := startBody_connInvariant att a s h
      rwa [hb] at this
    rcases r with e | u
    case ok => simpa using h1
    case error => cases rest with
      | cons b l2 => exact ih _ _ h1
      | nil =>
        apply ih
        apply connInvariant_set_started_false
        by_cases hsv : s1.server.isSome = true
        · rw [if_pos hsv]
          exact stop_connInvariant true stopOk s1 h1
        · rw [if_neg hsv]
          exact h1

/-- `start` preserves the connection invariant for arbitrary arguments
and oracles, on success and on every failure path. -/
theorem start_connInvariant (retries : Int) (backoff_s : Rat)
    (handleOk regOk stopOk : Bool) (att : Nat → Except UExc Unit)
    (s : OpcServer) (h : connInvariant s = true) :
    connInvariant (s.start retries backoff_s handleOk regOk att stopOk).1 = true := by
  unfold OpcServer.start
  by_cases h1 : retries < 1
  · rw [if_pos h1]; simpa using h
  rw [if_neg h1]
  by_cases h2 : backoff_s ≤ 0
  · rw [if_pos h2]; simpa using h
  rw [if_neg h2]
  by_cases h3 : (!s.check_general_invariants) = true
  · rw [if_pos h3]; simpa using h
  rw [if_neg h3]
  by_cases h4 : (!s.is_created) = true
  · simp only [h4, if_true]
    rcases hc : s.create handleOk regOk with ⟨s1, r⟩
    have hs1 : connInvariant s1 = true := by
      have := create_connInvariant handleOk regOk s h
      rwa [hc] at this
    rcases r with e | u
    · simpa using hs1
    · by_cases h5 : s1.is_started = true
      · simp only [h5, if_true]
        simpa using hs1
      · simp only [h5, Bool.false_eq_true, if_false]
        exact startLoop_connInvariant att stopOk _ none s1 hs1
  · simp only [h4, Bool.false_eq_true, if_false]
    by_cases h6 : (!s.idx_is_registered) = true
    · simp only [h6, if_true]
      rcases hc : s.register_index regOk with ⟨s1, r⟩
      have hs1 : connInvariant s1 = true := by
        have := register_index_connInvariant regOk s h
        rwa [hc] at this
      rcases r with e | u
      · simpa using hs1
      · by_cases h5 : s1.is_started = true
        · simp only [h5, if_true]
          simpa using hs1
        · simp only [h5, Bool.false_eq_true, if_false]
          exact startLoop_connInvariant att stopOk _ none s1 hs1
    · simp only [h6, Bool.false_eq_true, if_false]
      by_cases h5 : s.is_started = true
      · simp only [h5, if_true]
        simpa using h
      · simp only [h5, Bool.false_eq_true, if_false]
        exact startLoop_connInvariant att stopOk _ none s h

/-- C6: every public lifecycle operation — `create`, `start` and `stop` —
preserves the connection-state invariant (namespace index present iff
handle present; a raised started flag implies both), whether the call
returns normally or raises, for arbitrary arguments and oracles. -/
theorem lifecycle_preserves_invariant (s : OpcServer)
    (handleOk regOk stopOk clean : Bool) (retries : Int) (backoff_s : Rat)
    (att : Nat → Except UExc Unit) (h : connInvariant s = true) :
    connInvariant (s.create handleOk regOk).1 = true ∧
    connInvariant (s.start retries backoff_s handleOk regOk att stopOk).1 = true ∧
    connInvariant (s.stop clean stopOk).1 = true :=
  ⟨create_connInvariant handleOk regOk s h,
   start_connInvariant retries backoff_s handleOk regOk stopOk att s h,
   stop_connInvariant clean stopOk s h⟩

/-- C6 witness: the invariant is preserved across the three operations
starting from the freshly constructed state, with failing underlying
start attempts. -/
theorem lifecycle_preserves_invariant_witness :
    connInvariant (s0Ex.create true true).1 = true ∧
    connInvariant (s0Ex.start 2 1 true true (fun i => .error (excsW i)) true).1 = true ∧
    connInvariant (s0Ex.stop true true).1 = true :=
  lifecycle_preserves_invariant s0Ex true true true true 2 1
    (fun i => .error (excsW i)) (by rfl)


/-- Recursive deletion only removes identifiers from a forest. -/
theorem mem_allIdsF_delF (id x : NodeId) :
    ∀ (f : AForest), x ∈ allIdsF (delF id f) → x ∈ allIdsF f
  | .nil, h => h
  | .cons (.node i cs) ts, h => by
    simp only [delF] at h
    by_cases hid : i.nid = id
    · rw [if_pos hid] at h
      simp only [allIdsF, allIdsT]
      exact List.mem_append.mpr (Or.inr (mem_allIdsF_delF id x ts h))
    · rw [if_neg hid] at h
      simp only [allIdsF, allIdsT] at h ⊢
      rcases List.mem_append.mp h with h | h
      · rcases List.mem_cons.mp h with h | h
        · exact List.mem_append.mpr (Or.inl (List.mem_cons.mpr (Or.inl h)))
        · exact List.mem_append.mpr
            (Or.inl (List.mem_cons.mpr (Or.inr (mem_allIdsF_delF id x cs h))))
      · exact List.mem_append.mpr (Or.inr (mem_allIdsF_delF id x ts h))

mutual

/-- A subtree found inside a tree contributes only identifiers of that
tree. -/
theorem findT_ids_sub (r x : NodeId) :
    ∀ (t u : ATree), findT r t = some u → x ∈ allIdsT u → x ∈ allIdsT t
  | .node i cs, u, hf, hx => by
    simp only [findT] at hf
    by_cases hr : i.nid = r
    · rw [if_pos hr] at hf
      cases hf
      exact hx
    · rw [if_neg hr] at hf
      simp only [allIdsT]
      exact List.mem_cons.mpr (Or.inr (findF_ids_sub r x cs u hf hx))

/-- A subtree found inside a forest contributes only identifiers of that
forest. -/
theorem findF_ids_sub (r x : NodeId) :
    ∀ (f : AForest) (u : ATree), findF r f = some u → x ∈ allIdsT u → x ∈ allIdsF f
  | .nil, u, hf, _ => by simp [findF] at hf
  | .cons t ts, u, hf, hx => by
    simp only [findF] at hf
    rcases hft : findT r t with _ | u2
    · rw [hft] at hf
      simp only [allIdsF]
      exact List.mem_append.mpr (Or.inr (findF_ids_sub r x ts u hf hx))
    · rw [hft] at hf
      injection hf with hfe
      subst hfe
      simp only [allIdsF]
      exact List.mem_append.mpr (Or.inl (findT_ids_sub r x t u2 hft hx))

end

/-- In a forest with unique identifiers, deleting a found subtree removes
every identifier of that subtree. -/
theorem delF_removes (r x : NodeId) :
    ∀ (f : AForest) (t : ATree), (allIdsF f).Nodup → findF r f = some t →
      x ∈ allIdsT t → x ∉ allIdsF (delF r f)
  | .nil, t, _, hf, _ => by simp [findF] at hf
  | .cons (.node i cs) ts, t, hnd, hf, hx => by
    simp only [findF, findT] at hf
    simp only [allIdsF, allIdsT, List.cons_append, List.nodup_cons] at hnd
    obtain ⟨hhead, htail⟩ := hnd
    have hdisj := List.disjoint_of_nodup_append htail
    by_cases hr : i.nid = r
    · rw [if_pos hr] at hf
      cases hf
      intro hmem
      simp only [delF, if_pos hr] at hmem
      have hts := mem_allIdsF_delF r x ts hmem
      simp only [allIdsT] at hx
      rcases List.mem_cons.mp hx with hx | hx
      · exact hhead (List.mem_append.mpr (Or.inr (hx ▸ hts)))
      · exact hdisj hx hts
    · rw [if_neg hr] at hf
      rcases hfc : findF r cs with _ | u
      · rw [hfc] at hf
        simp only at hf
        have hxts := findF_ids_sub r x ts t hf hx
        intro hmem
        simp only [delF, if_neg hr, allIdsF, allIdsT] at hmem
        rcases List.mem_append.mp hmem with hm | hm
        · rcases List.mem_cons.mp hm with hx1 | hx1
          · exact hhead (List.mem_append.mpr (Or.inr (hx1 ▸ hxts)))
          · exact hdisj (mem_allIdsF_delF r x cs hx1) hxts
        · exact delF_removes r x ts t htail.of_append_right hf hx hm
      · rw [hfc] at hf
        injection hf with hfe
        subst hfe
        have hxcs := findF_ids_sub r x cs u hfc hx
        intro hmem
        simp only [delF, if_neg hr, allIdsF, allIdsT] at hmem
        rcases List.mem_append.mp hmem with hm | hm
        · rcases List.mem_cons.mp hm with hx1 | hx1
          · exact hhead (List.mem_append.mpr (Or.inl (hx1 ▸ hxcs)))
          · exact delF_removes r x cs u htail.of_append_left hfc hx hx1
        · exact hdisj hxcs (mem_allIdsF_delF r x ts hm)


/-- C3: whenever the post-pass invariant check of `resolve_nodes` fails,
the cleanup handler resets the tracked node list to empty, deletes the
subtree of the local variable `root` — under which the freshly built
subtree lies — so that no node of the fresh subtree remains in the
address space, and raises an `OpcServerError` wrapping the assertion
failure. -/
theorem resolveFinish_cleanup (s : OpcServer) (stats : ResolveStats)
    (rootVar freshRoot : NodeId) (h : SrvHandle) (t ft : ATree)
    (hsrv : s.server = some h)
    (hnd : (allIdsF h.forest).Nodup)
    (hfind : findF rootVar h.forest = some t)
    (hsub : findT freshRoot t = some ft)
    (hfail : s.check_nodes_resolved stats freshRoot = false) :
    (s.resolveFinish stats rootVar freshRoot).1.resolved_nodes = some [] ∧
    (∀ h2, (s.resolveFinish stats rootVar freshRoot).1.server = some h2 →
      ∀ x ∈ allIdsT ft, x ∉ allIdsF h2.forest) ∧
    (s.resolveFinish stats rootVar freshRoot).2 =
      .error (.opcServerError s.endpoint_url "Invariantes de resolucion incumplidas"
        (some (.assertionError "invariantes de resolucion"))) := by
  unfold OpcServer.resolveFinish
  rw [hfail, Bool.and_false]
  simp only [Bool.false_eq_true, if_false, hsrv]
  refine ⟨trivial, ?_, trivial⟩
  intro h2 hh2 x hx
  injection hh2 with hh2e
  subst hh2e
  exact delF_removes rootVar x h.forest t hnd hfind (findT_ids_sub freshRoot x t ft hsub hx)

/-- C3 witness: the cleanup at a concrete state whose statistics violate
the counter balance, with the fresh root folder sitting under Objects. -/
theorem resolveFinish_cleanup_witness :
    (sC3.resolveFinish ⟨1, 0, 0, 0⟩ objectsId ⟨2, .num 2000⟩).1.resolved_nodes = some [] ∧
    (sC3.resolveFinish ⟨1, 0, 0, 0⟩ objectsId ⟨2, .num 2000⟩).2 =
      .error (.opcServerError sC3.endpoint_url "Invariantes de resolucion incumplidas"
        (some (.assertionError "invariantes de resolucion"))) := by
  have hmain := resolveFinish_cleanup sC3 ⟨1, 0, 0, 0⟩ objectsId ⟨2, .num 2000⟩
    ⟨c3Forest, 2001, 3⟩
    (.node ⟨objectsId, ⟨0, "Objects"⟩, .object, false, none⟩
      (.cons (.node ⟨⟨2, .num 2000⟩, ⟨2, "root"⟩, .object, false, none⟩ .nil) .nil))
    (.node ⟨⟨2, .num 2000⟩, ⟨2, "root"⟩, .object, false, none⟩ .nil)
    (by rfl) (by decide) (by rfl) (by rfl) (by rfl)
  exact ⟨hmain.1, hmain.2.2⟩


/-- In the updated-in-place branch of `dictSet`, the first entry carrying
the key has been replaced by the new pair. -/
theorem find_map_set (k v : String) :
    ∀ (d : List (String × String)), d.any (fun p => p.1 == k) = true →
      (d.map (fun p => if p.1 == k then (k, v) else p)).find? (fun p => p.1 == k)
        = some (k, v)
  | [], h => by simp at h
  | p :: rest, h => by
    by_cases hp : (p.1 == k) = true
    · have hpe : p.1 = k := by simpa using hp
      simp [List.find?_cons, hpe]
    · have h2 : rest.any (fun p => p.1 == k) = true := by
        simp only [List.any_cons, hp, Bool.false_or] at h
        exact h
      simp only [List.map_cons, hp, Bool.false_eq_true, if_false, List.find?_cons]
      exact find_map_set k v rest h2

/-- Entries with a different key are unaffected by the in-place update. -/
theorem find_map_ne (k k' v : String) (hkk : (k' == k) = false) :
    ∀ (d : List (String × String)),
      (d.map (fun p => if p.1 == k' then (k', v) else p)).find? (fun p => p.1 == k)
        = d.find? (fun p => p.1 == k)
  | [] => rfl
  | p :: rest => by
    by_cases hp : (p.1 == k') = true
    · have hpe : p.1 = k' := by simpa using hp
      have hpk : (p.1 == k) = false := by rw [hpe]; exact hkk
      simp only [List.map_cons, hp, if_true, List.find?_cons]
      rw [hkk, hpk]
      exact find_map_ne k k' v hkk rest
    · simp only [List.map_cons, hp, Bool.false_eq_true, if_false, List.find?_cons]
      rcases hq : (p.1 == k) with _ | _
      · exact find_map_ne k k' v hkk rest
      · rfl

/-- Looking up the key just set returns the new value. -/
theorem dictGet_dictSet_self (d : List (String × String)) (k v : String) :
    dictGet (dictSet d k v) k = some v := by
  unfold dictSet dictGet
  by_cases hany : d.any (fun p => p.1 == k) = true
  · rw [if_pos hany, find_map_set k v d hany]
    rfl
  · rw [if_neg hany, List.find?_append]
    have hl : d.find? (fun p => p.1 == k) = none := by
      rw [List.find?_eq_none]
      intro x hx hpx
      exact hany (List.any_eq_true.mpr ⟨x, hx, hpx⟩)
    rw [hl]
    simp [List.find?_cons]

/-- Looking up any other key is unaffected by `dictSet`. -/
theorem dictGet_dictSet_ne (d : List (String × String)) (k k' v : String)
    (hkk : (k' == k) = false) : dictGet (dictSet d k' v) k = dictGet d k := by
  unfold dictSet dictGet
  by_cases hany : d.any (fun p => p.1 == k') = true
  · rw [if_pos hany, find_map_ne k k' v hkk d]
  · rw [if_neg hany, List.find?_append]
    have h1 : ([(k', v)].find? (fun p => p.1 == k)) = none := by
      simp [List.find?_cons, hkk]
    rw [h1, Option.or_none]

/-- Folding `dictSet` over a list of pairs makes lookup return the value
of the last pair carrying the key. -/
theorem dictGet_foldl (k : String) :
    ∀ (l d : List (String × String)),
      dictGet (l.foldl (fun acc p => dictSet acc p.1 p.2) d) k =
        (match l.reverse.find? (fun p => p.1 == k) with
         | some p => some p.2
         | none => dictGet d k)
  | [], d => rfl
  | q :: rest, d => by
    simp only [List.foldl_cons]
    rw [dictGet_foldl k rest (dictSet d q.1 q.2)]
    rw [List.reverse_cons, List.find?_append]
    rcases hf : rest.reverse.find? (fun p => p.1 == k) with _ | p
    · rw [hf]
      simp only [Option.none_or]
      by_cases hq : (q.1 == k) = true
      · have hqe : q.1 = k := by simpa using hq
        subst hqe
        simp [List.find?_cons, dictGet_dictSet_self]
      · have h1 : ([q].find? (fun p => p.1 == k)) = none := by
          simp [List.find?_cons, hq]
        rw [h1]
        exact dictGet_dictSet_ne d k q.1 q.2 (by simpa using hq)
    · rw [hf]
      rfl

mutual

/-- `build_node_dict` is the fold of Python dict assignment over the
variables it visits, in visit order. -/
theorem build_node_dict_eq_foldl (idxf : Option Nat) :
    ∀ (t : ATree) (dic : List (String × String)),
      build_node_dict t dic idxf =
        (varsT idxf t).foldl (fun acc p => dictSet acc p.1 p.2) dic
  | .node i cs, dic => by
    simp only [build_node_dict, varsT]
    exact buildChildren_eq_foldl idxf cs dic

/-- Forest version of `build_node_dict_eq_foldl`. -/
theorem buildChildren_eq_foldl (idxf : Option Nat) :
    ∀ (f : AForest) (dic : List (String × String)),
      buildChildren f dic idxf =
        (varsF idxf f).foldl (fun acc p => dictSet acc p.1 p.2) dic
  | .nil, dic => rfl
  | .cons c cs, dic => by
    rcases c with ⟨info, ccs⟩
    simp only [buildChildren, varsF, List.foldl_append]
    rw [buildChildren_eq_foldl idxf cs, build_node_dict_eq_foldl idxf (.node info ccs)]
    rcases hcl : info.cls with _ | _ <;> rcases idxf with _ | i <;>
      simp [hcl] <;> split <;> simp

end

/-- C9: the exported alias map is keyed by browse name alone.  For every
tree walked by `build_node_dict` starting from an empty dict, the entry
stored under a browse name is the identifier of the variable visited last
with that name, so of several same-named variables only the last visited
appears; at the concrete `exTree` two variables named `Dup` produce a
one-entry map holding the second identifier, and `export_nodes_to_json`
writes exactly that map. -/
theorem export_last_wins :
    (∀ (t : ATree) (idxf : Option Nat) (k : String),
      dictGet (build_node_dict t [] idxf) k =
        (match (varsT idxf t).reverse.find? (fun p => p.1 == k) with
         | some p => some p.2
         | none => none)) ∧
    (build_node_dict exTree [] (some 2)).length = 1 ∧
    (varsT (some 2) exTree).length = 2 ∧
    dictGet (build_node_dict exTree [] (some 2)) "Dup" = some "ns=2;s=b" ∧
    (sExp.export_nodes_to_json true).2 = .ok (some [("Dup", "ns=2;s=b")]) := by
  refine ⟨?_, by rfl, by rfl, by rfl, by rfl⟩
  intro t idxf k
  rw [build_node_dict_eq_foldl idxf t, dictGet_foldl k]
  rcases hf : (varsT idxf t).reverse.find? (fun p => p.1 == k) with _ | p <;>
    simp [dictGet]


end OPC
